import Mathlib

/-!
Verification of the whichlas tile-coverage query engine.

The program (whichlas.py) answers which LAS tiles from a shapefile index
cover a user-specified area of interest, given either as a bounding box or
as a CSV of points forming a path.  We embed its core logic:

* `validate_coordinates`, `build_query_geometry` (bbox branch) and the
  filename-field lookup over exact rationals, mirroring the Python control
  flow including its error cases;
* the geometric content (buffering, convex hulls, disks, unions of tile
  footprints) as subsets of the Euclidean plane `EuclideanSpace ℝ (Fin 2)`;
* the overall flow of `main` as a function that also records the ordered
  trace of pipeline stages it executes, so that ordering statements
  ("before any geometry work") can be settled.
-/

open MeasureTheory

namespace Whichlas

/-- Python `str.upper()` on the string's characters (the CRS strings involved
are ASCII, where `Char.toUpper` agrees with Python). -/
def strUpper (s : String) : String := ⟨s.data.map Char.toUpper⟩

/-- Python `str.lower()` on the string's characters. -/
def strLower (s : String) : String := ⟨s.data.map Char.toLower⟩

/-- Python `s.startswith(pre)`. -/
def strStartsWith (s pre : String) : Bool := pre.data.isPrefixOf s.data

/-- Structured stand-ins for the `ValueError` messages raised by
`validate_coordinates`. -/
inductive CoordError where
  | lonOutOfBounds : ℚ → CoordError
  | latOutOfBounds : ℚ → CoordError
deriving DecidableEq

/-- Embedding of `validate_coordinates(x, y, crs)`: range checks are applied
only when `crs.upper() == "EPSG:4326"`; the function returns `True` when no
error is raised. -/
def validate_coordinates (x y : ℚ) (crs : String) : Except CoordError Bool :=
  if strUpper crs = "EPSG:4326" then
    if ¬ (-180 ≤ x ∧ x ≤ 180) then .error (.lonOutOfBounds x)
    else if ¬ (-90 ≤ y ∧ y ≤ 90) then .error (.latOutOfBounds y)
    else .ok true
  else .ok true

/-- Symbolic description of the shapely geometry value built by the bbox
branch of `build_query_geometry`: `box(minx, miny, maxx, maxy)` optionally
wrapped in `.buffer(d)`. -/
inductive QGeom where
  | box : ℚ → ℚ → ℚ → ℚ → QGeom
  | buffered : QGeom → ℚ → QGeom
deriving DecidableEq

/-- The error cases of the bbox branch of `build_query_geometry`:
coordinate-range failures propagated from `validate_coordinates`, and the
two degenerate-bounds messages ("minx must be less than maxx" /
"miny must be less than maxy").  The Boolean marks which axis failed. -/
inductive BuildError where
  | coordError : CoordError → BuildError
  | invalidBounds : Bool → BuildError
deriving DecidableEq

/-- Embedding of the bbox branch of `build_query_geometry`: validate both
corner coordinate pairs, reject `minx >= maxx` and `miny >= maxy`, build the
rectangle, and buffer it only when `buffer > 0`. -/
def build_query_geometry_bbox (minx miny maxx maxy buffer : ℚ)
    (inputCrs : String) : Except BuildError QGeom :=
  match validate_coordinates minx miny inputCrs with
  | .error e => .error (.coordError e)
  | .ok _ =>
    match validate_coordinates maxx maxy inputCrs with
    | .error e => .error (.coordError e)
    | .ok _ =>
      if maxx ≤ minx then .error (.invalidBounds true)
      else if maxy ≤ miny then .error (.invalidBounds false)
      else
        let g := QGeom.box minx miny maxx maxy
        if 0 < buffer then .ok (.buffered g buffer) else .ok g

/-- The predicate used by `main` to locate the filename attribute:
`f.lower().startswith("file")`. -/
def isFileField (f : String) : Bool := strStartsWith (strLower f) "file"

/-- Embedding of
`next((f for f in src.schema["properties"] if f.lower().startswith("file")), None)`:
the first schema field, in declared order, whose lower-cased name starts with
`"file"`. -/
def findFileField (props : List String) : Option String :=
  props.find? isFileField

/-- Lexicographic (code-point) order on strings, as Python compares `str`
values: the core lexicographic order on the underlying character lists. -/
def strLe (a b : String) : Prop := ¬ b.data < a.data

instance : DecidableRel strLe := fun _ _ => instDecidableNot

/-- Embedding of `sorted(set(hits))` at the tile-list reporting step:
deduplicate, then sort lexicographically (Python sorts strings by code
point). -/
def sortedUniq (hits : List String) : List String :=
  List.insertionSort strLe hits.dedup

/-- Embedding of `cov = area2_ft2 / area_ft2 * 100`. -/
def coverage_percent (queryArea matchedArea : ℚ) : ℚ :=
  matchedArea / queryArea * 100

/-- Embedding of `over = cov - 100`. -/
def overrun_percent (queryArea matchedArea : ℚ) : ℚ :=
  coverage_percent queryArea matchedArea - 100

/-- Round-half-to-even to the nearest integer, as Python `round` does on
exact values. -/
def roundHalfEven (x : ℚ) : ℤ :=
  if x - ⌊x⌋ < 1/2 then ⌊x⌋
  else if 1/2 < x - ⌊x⌋ then ⌊x⌋ + 1
  else if Even ⌊x⌋ then ⌊x⌋ else ⌊x⌋ + 1

/-- Python `round(x, 1)`, used when serializing the percentages to the
output metadata. -/
def round1 (x : ℚ) : ℚ :=
  (roundHalfEven (10 * x) : ℚ) / 10

/-- The pipeline stages of `main`, in the order the code can perform them. -/
inductive Stage where
  | buildGeometry
  | openIndex
  | reprojectQuery
  | fieldLookup
  | scanTiles
  | computeStats
  | writeOutput
deriving DecidableEq

/-- The ways `main` terminates with `sys.exit(1)`. -/
inductive MainError where
  | shapefileNotFound
  | geometryError : BuildError → MainError
  | schemaFieldNotFound
deriving DecidableEq

/-- What `main` reports and persists when it terminates normally
(`sys.exit(0)` or falling off the end). -/
structure ScanReport where
  totalTiles : Nat
  uniqTiles : List String
  tilesUsed : Nat
  coverage : Option ℚ
  overrun : Option ℚ
  noTilesFoundNotice : Bool
  outputWritten : Bool
deriving DecidableEq

/-- Embedding of the bbox-mode control flow of `main`: check the shapefile
exists, build the query geometry, open the index, reproject the query into
the index CRS, resolve the filename field, scan the tiles (each tile is a
filename paired with the outcome of the `intersects` test against the
reprojected query geometry), and either bail out on zero hits or compute
statistics and write the output.  The first component records, in order,
the stages executed before termination; `queryArea`/`matchedArea` stand for
the areas the geometric layer would report. -/
def runMain (shpExists : Bool) (minx miny maxx maxy buffer : ℚ)
    (inputCrs : String) (schemaProps : List String)
    (tiles : List (String × Bool)) (queryArea matchedArea : ℚ) :
    List Stage × Except MainError ScanReport :=
  if ¬ shpExists then ([], .error .shapefileNotFound)
  else
    match build_query_geometry_bbox minx miny maxx maxy buffer inputCrs with
    | .error e => ([.buildGeometry], .error (.geometryError e))
    | .ok _ =>
      match findFileField schemaProps with
      | none =>
          ([.buildGeometry, .openIndex, .reprojectQuery, .fieldLookup],
           .error .schemaFieldNotFound)
      | some _ =>
          let hits := (tiles.filter (fun t => t.2)).map (fun t => t.1)
          if hits.isEmpty then
            ([.buildGeometry, .openIndex, .reprojectQuery, .fieldLookup,
              .scanTiles],
             .ok { totalTiles := tiles.length
                   uniqTiles := []
                   tilesUsed := 0
                   coverage := none
                   overrun := none
                   noTilesFoundNotice := true
                   outputWritten := false })
          else
            ([.buildGeometry, .openIndex, .reprojectQuery, .fieldLookup,
              .scanTiles, .computeStats, .writeOutput],
             .ok { totalTiles := tiles.length
                   uniqTiles := sortedUniq hits
                   tilesUsed := hits.dedup.length
                   coverage := some (round1 (coverage_percent queryArea matchedArea))
                   overrun := some (round1 (overrun_percent queryArea matchedArea))
                   noTilesFoundNotice := false
                   outputWritten := true })

/-! ### Geometric layer

The shapely geometry values are embedded as subsets of the Euclidean plane.
`box`, `buffer`, `Point.buffer`, `LineString`, `unary_union` and
`convex_hull` become set-level constructions; areas are Lebesgue volume. -/

/-- The Euclidean plane, with the Euclidean metric and Lebesgue measure. -/
abbrev E2 : Type := EuclideanSpace ℝ (Fin 2)

/-- The point `(x, y)` of the plane. -/
def pt (x y : ℝ) : E2 := ![x, y]

/-- Embedding of shapely `box(minx, miny, maxx, maxy)`: the solid axis-aligned
rectangle. -/
def bboxSet (minx miny maxx maxy : ℝ) : Set E2 :=
  {p | minx ≤ p 0 ∧ p 0 ≤ maxx ∧ miny ≤ p 1 ∧ p 1 ≤ maxy}

/-- Embedding of shapely `geom.buffer(d)` for a solid geometry: all points
within Euclidean distance `d` of the geometry (the Minkowski sum with the
closed disk of radius `d`). -/
def bufferSet (S : Set E2) (d : ℝ) : Set E2 :=
  {p | ∃ q ∈ S, dist p q ≤ d}

/-- The geometry produced by the bbox branch of `build_query_geometry`:
the rectangle, buffered only when `buffer > 0`. -/
def bboxGeometry (minx miny maxx maxy buffer : ℝ) : Set E2 :=
  {p | (0 < buffer ∧ p ∈ bufferSet (bboxSet minx miny maxx maxy) buffer) ∨
       (¬ 0 < buffer ∧ p ∈ bboxSet minx miny maxx maxy)}

/-- The four corners of a bbox. -/
def bboxCorners (minx miny maxx maxy : ℝ) : List E2 :=
  [pt minx miny, pt maxx miny, pt maxx maxy, pt minx maxy]

/-- Embedding of `LineString([(p.x, p.y) for p in pts])`: the polyline through
the points in input order, as the union of the consecutive segments. -/
def pathOf : List E2 → Set E2
  | [] => ∅
  | [_] => ∅
  | a :: b :: rest => segment ℝ a b ∪ pathOf (b :: rest)

/-- Embedding of the CSV branch of `build_query_geometry` after the points are
read: a single point is buffered into the closed disk of radius `0.001`;
two or more points yield the convex hull of `unary_union(pts + [path])`. -/
def build_query_geometry_points (pts : List E2) : Set E2 :=
  if pts.length < 2 then Metric.closedBall pts.headI 0.001
  else convexHull ℝ ({p | p ∈ pts} ∪ pathOf pts)

/-- Embedding of `unary_union(geoms)` for the matched tile footprints. -/
def matchedUnion (geoms : List (Set E2)) : Set E2 :=
  {p | ∃ g ∈ geoms, p ∈ g}

/-! ### Helper lemmas -/

theorem strLe_iff_le (a b : String) : strLe a b ↔ a ≤ b := by
  rw [String.le_iff_toList_le, ← not_lt]
  exact Iff.rfl

instance : IsTotal String strLe :=
  ⟨fun a b => by
    rw [strLe_iff_le, strLe_iff_le]
    exact le_total a b⟩

instance : IsTrans String strLe :=
  ⟨fun a b c hab hbc => by
    rw [strLe_iff_le] at hab hbc ⊢
    exact le_trans hab hbc⟩

/-- `List.find?` returns an element satisfying the predicate, positioned after
a prefix of elements that all fail it. -/
theorem find?_eq_some_split {α : Type} {p : α → Bool} :
    ∀ {l : List α} {a : α}, l.find? p = some a →
      p a = true ∧ ∃ pre suf, l = pre ++ a :: suf ∧ ∀ b ∈ pre, p b = false
  | [], a, h => by simp at h
  | x :: xs, a, h => by
    by_cases hx : p x = true
    · rw [List.find?_cons_of_pos _ hx] at h
      obtain rfl : x = a := by injection h
      exact ⟨hx, [], xs, rfl, by simp⟩
    · rw [List.find?_cons_of_neg _ hx] at h
      obtain ⟨ha, pre, suf, hsplit, hpre⟩ := find?_eq_some_split h
      refine ⟨ha, x :: pre, suf, by rw [hsplit]; rfl, ?_⟩
      intro b hb
      rcases List.mem_cons.mp hb with rfl | hb
      · exact Bool.eq_false_iff.mpr hx
      · exact hpre b hb

/-- Rounding half-to-even commutes with subtracting an even integer. -/
theorem roundHalfEven_sub_even (x : ℚ) (n : ℤ) (hn : Even n) :
    roundHalfEven (x - n) = roundHalfEven x - n := by
  unfold roundHalfEven
  have hf : ⌊x - (n : ℚ)⌋ = ⌊x⌋ - n := Int.floor_sub_int x n
  rw [hf]
  have hfrac : x - (n : ℚ) - ((⌊x⌋ - n : ℤ) : ℚ) = x - (⌊x⌋ : ℚ) := by
    push_cast
    ring
  rw [hfrac]
  have heven : Even (⌊x⌋ - n) ↔ Even ⌊x⌋ := by
    rw [Int.even_sub]
    exact ⟨fun h => h.mpr hn, fun h => ⟨fun _ => hn, fun _ => h⟩⟩
  by_cases h1 : x - (⌊x⌋ : ℚ) < 1/2
  · rw [if_pos h1, if_pos h1]
  · rw [if_neg h1, if_neg h1]
    by_cases h2 : 1/2 < x - (⌊x⌋ : ℚ)
    · rw [if_pos h2, if_pos h2]
      ring
    · rw [if_neg h2, if_neg h2]
      by_cases h3 : Even ⌊x⌋
      · rw [if_pos h3, if_pos (heven.mpr h3)]
      · rw [if_neg h3, if_neg (fun h => h3 (heven.mp h))]
        ring

/-- Rounding half-to-even is nonnegative on nonnegative inputs. -/
theorem roundHalfEven_nonneg (x : ℚ) (hx : 0 ≤ x) : 0 ≤ roundHalfEven x := by
  unfold roundHalfEven
  have hf : 0 ≤ ⌊x⌋ := Int.floor_nonneg.mpr hx
  by_cases h1 : x - (⌊x⌋ : ℚ) < 1/2
  · rw [if_pos h1]
    exact hf
  · rw [if_neg h1]
    by_cases h2 : 1/2 < x - (⌊x⌋ : ℚ)
    · rw [if_pos h2]
      omega
    · rw [if_neg h2]
      by_cases h3 : Even ⌊x⌋
      · rw [if_pos h3]
        exact hf
      · rw [if_neg h3]
        omega

/-- `round1` commutes with subtracting 100. -/
theorem round1_sub_hundred (x : ℚ) : round1 (x - 100) = round1 x - 100 := by
  unfold round1
  have h : (10 : ℚ) * (x - 100) = 10 * x - (1000 : ℤ) := by
    push_cast
    ring
  rw [h, roundHalfEven_sub_even _ _ (by decide)]
  push_cast
  ring

/-- `round1` is nonnegative on nonnegative inputs. -/
theorem round1_nonneg (x : ℚ) (hx : 0 ≤ x) : 0 ≤ round1 x := by
  unfold round1
  have := roundHalfEven_nonneg (10 * x) (by positivity)
  positivity

/-! ### Claim theorems -/

/-- Claim C10: coordinate range validation happens only when the declared
input CRS, uppercased, is exactly `"EPSG:4326"`; for every other CRS string
`validate_coordinates` accepts every coordinate pair, and for EPSG:4326 it
succeeds exactly on in-range pairs. -/
theorem validate_coordinates_only_epsg4326 (crs : String) (x y : ℚ) :
    (strUpper crs ≠ "EPSG:4326" → validate_coordinates x y crs = .ok true) ∧
    (strUpper crs = "EPSG:4326" →
      (validate_coordinates x y crs = .ok true ↔
        ((-180 ≤ x ∧ x ≤ 180) ∧ (-90 ≤ y ∧ y ≤ 90)))) := by
  constructor
  · intro h
    unfold validate_coordinates
    rw [if_neg h]
  · intro h
    unfold validate_coordinates
    rw [if_pos h]
    by_cases h1 : (-180 ≤ x ∧ x ≤ 180)
    · rw [if_neg (not_not_intro h1)]
      by_cases h2 : (-90 ≤ y ∧ y ≤ 90)
      · rw [if_neg (not_not_intro h2)]
        simp [h1, h2]
      · rw [if_pos h2]
        simp [h2]
    · rw [if_pos h1]
      simp [h1]

/-- Witness for C10 at a non-EPSG:4326 CRS and wildly out-of-range
coordinates. -/
theorem validate_coordinates_only_epsg4326_witness :
    strUpper "EPSG:2263" ≠ "EPSG:4326" ∧
    validate_coordinates 1000000 (-1000000) "EPSG:2263" = .ok true :=
  ⟨by decide,
   (validate_coordinates_only_epsg4326 "EPSG:2263" 1000000 (-1000000)).1
     (by decide)⟩

/-- Claim C2: with in-range corner coordinates, the bbox branch of
`build_query_geometry` fails with the `InvalidBounds` errors exactly when
`minx >= maxx` or `miny >= maxy`, and otherwise succeeds with the rectangle
(buffered only when `buffer > 0`). -/
theorem build_query_geometry_bbox_invalidBounds_iff
    (minx miny maxx maxy buffer : ℚ) (crs : String)
    (h1 : validate_coordinates minx miny crs = .ok true)
    (h2 : validate_coordinates maxx maxy crs = .ok true) :
    ((∃ ax, build_query_geometry_bbox minx miny maxx maxy buffer crs =
        .error (.invalidBounds ax)) ↔ (maxx ≤ minx ∨ maxy ≤ miny)) ∧
    (minx < maxx → miny < maxy →
      build_query_geometry_bbox minx miny maxx maxy buffer crs =
        .ok (if 0 < buffer then
               QGeom.buffered (.box minx miny maxx maxy) buffer
             else .box minx miny maxx maxy)) := by
  unfold build_query_geometry_bbox
  rw [h1, h2]
  constructor
  · by_cases hx : maxx ≤ minx
    · rw [if_pos hx]
      exact ⟨fun _ => Or.inl hx, fun _ => ⟨true, rfl⟩⟩
    · rw [if_neg hx]
      by_cases hy : maxy ≤ miny
      · rw [if_pos hy]
        exact ⟨fun _ => Or.inr hy, fun _ => ⟨false, rfl⟩⟩
      · rw [if_neg hy]
        constructor
        · rintro ⟨ax, hax⟩
          by_cases hb : 0 < buffer
          · rw [if_pos hb] at hax
            exact absurd hax (by simp)
          · rw [if_neg hb] at hax
            exact absurd hax (by simp)
        · rintro (h | h)
          · exact absurd h hx
          · exact absurd h hy
  · intro hx hy
    rw [if_neg (not_le.mpr hx), if_neg (not_le.mpr hy)]
    by_cases hb : 0 < buffer
    · rw [if_pos hb, if_pos hb]
    · rw [if_neg hb, if_neg hb]

/-- Witness for C2 at the concrete bbox (0, 0, 1, 1) with no buffer. -/
theorem build_query_geometry_bbox_invalidBounds_iff_witness :
    validate_coordinates 0 0 "EPSG:4326" = .ok true ∧
    build_query_geometry_bbox 0 0 1 1 0 "EPSG:4326" = .ok (.box 0 0 1 1) := by
  refine ⟨by with_unfolding_all rfl, ?_⟩
  have h := (build_query_geometry_bbox_invalidBounds_iff 0 0 1 1 0 "EPSG:4326"
    (by with_unfolding_all rfl) (by with_unfolding_all rfl)).2
    (by norm_num) (by norm_num)
  rw [h]
  norm_num

/-- Claim C7: the reported tile list `sorted(set(hits))` never contains a
duplicate filename, is sorted in the lexicographic string order (not
discovery order), and contains exactly the filenames of the scan hits. -/
theorem sortedUniq_nodup_sorted_mem (hits : List String) :
    (sortedUniq hits).Nodup ∧
    List.Sorted (· ≤ ·) (sortedUniq hits) ∧
    (∀ s, s ∈ sortedUniq hits ↔ s ∈ hits) := by
  refine ⟨?_, ?_, ?_⟩
  · exact (List.perm_insertionSort strLe hits.dedup).nodup_iff.mpr
      (List.nodup_dedup hits)
  · exact (List.sorted_insertionSort strLe hits.dedup).imp
      (fun h => (strLe_iff_le _ _).mp h)
  · intro s
    unfold sortedUniq
    rw [(List.perm_insertionSort strLe hits.dedup).mem_iff]
    exact List.mem_dedup

/-- Claim C8: for positive query area and nonnegative matched area,
`coverage_percent` is nonnegative, `overrun_percent` equals
`coverage_percent - 100` exactly, the same relation holds for the rounded
values serialized to the output metadata, and every successful `runMain`
with output written serializes precisely those rounded values. -/
theorem coverage_nonneg_overrun_exact (queryArea matchedArea : ℚ)
    (hq : 0 < queryArea) (hm : 0 ≤ matchedArea) :
    0 ≤ coverage_percent queryArea matchedArea ∧
    overrun_percent queryArea matchedArea =
      coverage_percent queryArea matchedArea - 100 ∧
    round1 (overrun_percent queryArea matchedArea) =
      round1 (coverage_percent queryArea matchedArea) - 100 ∧
    0 ≤ round1 (coverage_percent queryArea matchedArea) ∧
    (∀ shpExists minx miny maxx maxy buffer crs props tiles r,
      (runMain shpExists minx miny maxx maxy buffer crs props tiles
          queryArea matchedArea).2 = .ok r →
      r.outputWritten = true →
      r.coverage = some (round1 (coverage_percent queryArea matchedArea)) ∧
      r.overrun =
        some (round1 (coverage_percent queryArea matchedArea) - 100)) := by
  have hcov : 0 ≤ coverage_percent queryArea matchedArea := by
    unfold coverage_percent
    positivity
  refine ⟨hcov, rfl, round1_sub_hundred _, round1_nonneg _ hcov, ?_⟩
  intro shpExists minx miny maxx maxy buffer crs props tiles r hr hw
  unfold runMain at hr
  by_cases hs : ¬ shpExists
  · rw [if_pos hs] at hr
    exact absurd hr (by simp)
  · rw [if_neg hs] at hr
    rcases hg : build_query_geometry_bbox minx miny maxx maxy buffer crs with e | g
    · rw [hg] at hr
      exact absurd hr (by simp)
    · rw [hg] at hr
      rcases hf : findFileField props with _ | f
      · rw [hf] at hr
        exact absurd hr (by simp)
      · rw [hf] at hr
        by_cases hh : ((tiles.filter (fun t => t.2)).map (fun t => t.1)).isEmpty
        · rw [if_pos hh] at hr
          obtain rfl : _ = r := by injection hr
          simp at hw
        · rw [if_neg hh] at hr
          obtain rfl : _ = r := by injection hr
          refine ⟨rfl, ?_⟩
          show some (round1 (overrun_percent queryArea matchedArea)) = _
          rw [show overrun_percent queryArea matchedArea =
                coverage_percent queryArea matchedArea - 100 from rfl,
              round1_sub_hundred]

/-- Witness for C8 at query area 4 and matched area 5 (coverage 125%,
overrun 25%). -/
theorem coverage_nonneg_overrun_exact_witness :
    (0 : ℚ) < 4 ∧ (0 : ℚ) ≤ 5 ∧
    0 ≤ coverage_percent 4 5 ∧
    overrun_percent 4 5 = coverage_percent 4 5 - 100 ∧
    round1 (overrun_percent 4 5) = round1 (coverage_percent 4 5) - 100 := by
  have h := coverage_nonneg_overrun_exact 4 5 (by norm_num) (by norm_num)
  exact ⟨by norm_num, by norm_num, h.1, h.2.1, h.2.2.1⟩

/-- Claim C1 (counterexample to the claim as stated): on a concrete
zero-match bbox run, `main` prints "No tiles found." and exits with status 0
without producing the tile-list output and without computing any coverage
value — in particular the serialized coverage is absent, not `0`. -/
theorem runMain_zero_matches_counterexample :
    (runMain true (-741/10) (407/10) (-739/10) (408/10) 0 "EPSG:4326"
        ["FILE_NAME"] [("a.las", false), ("b.las", false)] 1 0).2 =
      .ok { totalTiles := 2, uniqTiles := [], tilesUsed := 0, coverage := none,
            overrun := none, noTilesFoundNotice := true,
            outputWritten := false } ∧
    Except.map ScanReport.outputWritten
      (runMain true (-741/10) (407/10) (-739/10) (408/10) 0 "EPSG:4326"
        ["FILE_NAME"] [("a.las", false), ("b.las", false)] 1 0).2 ≠
      .ok true ∧
    Except.map ScanReport.coverage
      (runMain true (-741/10) (407/10) (-739/10) (408/10) 0 "EPSG:4326"
        ["FILE_NAME"] [("a.las", false), ("b.las", false)] 1 0).2 ≠
      .ok (some 0) := by
  have h : (runMain true (-741/10) (407/10) (-739/10) (408/10) 0 "EPSG:4326"
      ["FILE_NAME"] [("a.las", false), ("b.las", false)] 1 0).2 =
      .ok { totalTiles := 2, uniqTiles := [], tilesUsed := 0, coverage := none,
            overrun := none, noTilesFoundNotice := true,
            outputWritten := false } := by
    with_unfolding_all rfl
  refine ⟨h, ?_, ?_⟩
  · rw [h]
    intro hc
    injection hc with hc
    exact Bool.false_ne_true hc
  · rw [h]
    intro hc
    injection hc with hc
    exact Option.noConfusion hc

/-- Claim C1 (amended): whenever the shapefile exists, the query geometry
builds, the filename field resolves, and no tile passes the intersects test,
`main` terminates normally (exit status 0, a valid outcome rather than a
failure) with an empty tile set — but it does so without computing coverage
statistics and without writing the tile-list output. -/
theorem runMain_zero_matches (shpExists : Bool)
    (minx miny maxx maxy buffer : ℚ) (crs : String) (props : List String)
    (tiles : List (String × Bool)) (qA mA : ℚ) (g : QGeom) (f : String)
    (hshp : shpExists = true)
    (hgeom : build_query_geometry_bbox minx miny maxx maxy buffer crs = .ok g)
    (hfld : findFileField props = some f)
    (hscan : ∀ t ∈ tiles, t.2 = false) :
    (runMain shpExists minx miny maxx maxy buffer crs props tiles qA mA).2 =
      .ok { totalTiles := tiles.length, uniqTiles := [], tilesUsed := 0,
            coverage := none, overrun := none, noTilesFoundNotice := true,
            outputWritten := false } := by
  subst hshp
  unfold runMain
  rw [if_neg (by simp), hgeom, hfld]
  have hfil : tiles.filter (fun t => t.2) = [] := by
    rw [List.filter_eq_nil_iff]
    intro t ht
    simp [hscan t ht]
  rw [hfil]
  rfl

/-- Witness for the amended C1 at a concrete zero-match input. -/
theorem runMain_zero_matches_witness :
    build_query_geometry_bbox 0 0 2 2 0 "EPSG:4326" = .ok (.box 0 0 2 2) ∧
    findFileField ["filename"] = some "filename" ∧
    (runMain true 0 0 2 2 0 "EPSG:4326" ["filename"] [("t1.las", false)]
        4 0).2 =
      .ok { totalTiles := 1, uniqTiles := [], tilesUsed := 0, coverage := none,
            overrun := none, noTilesFoundNotice := true,
            outputWritten := false } :=
  ⟨by with_unfolding_all rfl, rfl,
   runMain_zero_matches true 0 0 2 2 0 "EPSG:4326" ["filename"]
     [("t1.las", false)] 4 0 (.box 0 0 2 2) "filename" rfl
     (by with_unfolding_all rfl) rfl (by simp)⟩

/-- Claim C6 (counterexample to the claim as stated): on a concrete run whose
index schema has no field starting with "file", `main` does fail with the
schema-field error, but only after the query geometry has been built and
reprojected — geometry work does happen before the failure. -/
theorem findFileField_fail_counterexample :
    runMain true 0 0 1 1 0 "EPSG:4326" ["ID", "AREA"] [("a.las", true)] 1 1 =
      ([.buildGeometry, .openIndex, .reprojectQuery, .fieldLookup],
       .error .schemaFieldNotFound) ∧
    Stage.buildGeometry ∈
      (runMain true 0 0 1 1 0 "EPSG:4326" ["ID", "AREA"]
        [("a.las", true)] 1 1).1 ∧
    Stage.reprojectQuery ∈
      (runMain true 0 0 1 1 0 "EPSG:4326" ["ID", "AREA"]
        [("a.las", true)] 1 1).1 := by
  have h : runMain true 0 0 1 1 0 "EPSG:4326" ["ID", "AREA"]
      [("a.las", true)] 1 1 =
      ([.buildGeometry, .openIndex, .reprojectQuery, .fieldLookup],
       .error .schemaFieldNotFound) := by
    with_unfolding_all rfl
  refine ⟨h, ?_, ?_⟩ <;> rw [h] <;> simp

/-- Claim C6 (amended): the filename field is the first schema field, in
declared order, whose name starts with the case-insensitive prefix "file";
when none exists the engine fails with the schema-field error before any
tile is scanned — though after the query geometry has been built and
reprojected. -/
theorem findFileField_first_and_fail_before_scan (props : List String) :
    (findFileField props = none ↔ ∀ f ∈ props, isFileField f = false) ∧
    (∀ f, findFileField props = some f →
      isFileField f = true ∧
      ∃ pre suf, props = pre ++ f :: suf ∧ ∀ g ∈ pre, isFileField g = false) ∧
    (∀ (minx miny maxx maxy buffer qA mA : ℚ) (crs : String)
        (tiles : List (String × Bool)) (g : QGeom),
      findFileField props = none →
      build_query_geometry_bbox minx miny maxx maxy buffer crs = .ok g →
      (runMain true minx miny maxx maxy buffer crs props tiles qA mA).2 =
        .error .schemaFieldNotFound ∧
      Stage.scanTiles ∉
        (runMain true minx miny maxx maxy buffer crs props tiles qA mA).1) := by
  refine ⟨?_, ?_, ?_⟩
  · unfold findFileField
    rw [List.find?_eq_none]
    constructor
    · intro h f hf
      exact Bool.eq_false_iff.mpr (h f hf)
    · intro h f hf
      rw [h f hf]
      exact Bool.false_ne_true
  · intro f hf
    exact find?_eq_some_split hf
  · intro minx miny maxx maxy buffer qA mA crs tiles g hnone hgeom
    unfold runMain
    rw [if_neg (by simp), hgeom, hnone]
    exact ⟨rfl, by simp⟩

/-- Witness for the amended C6: a schema whose second field is the first
"file"-prefixed one, and a concrete no-file-field run that fails at field
lookup without scanning. -/
theorem findFileField_first_and_fail_before_scan_witness :
    findFileField ["ID", "Filename", "file2"] = some "Filename" ∧
    isFileField "Filename" = true ∧
    findFileField ["ID", "AREA"] = none ∧
    build_query_geometry_bbox 0 0 3 3 0 "EPSG:4326" = .ok (.box 0 0 3 3) ∧
    (runMain true 0 0 3 3 0 "EPSG:4326" ["ID", "AREA"] [("a.las", true)]
        9 9).2 = .error .schemaFieldNotFound :=
  ⟨rfl,
   ((findFileField_first_and_fail_before_scan ["ID", "Filename", "file2"]).2.1
     "Filename" rfl).1,
   (findFileField_first_and_fail_before_scan ["ID", "AREA"]).1.mpr
     (by decide),
   by with_unfolding_all rfl,
   ((findFileField_first_and_fail_before_scan ["ID", "AREA"]).2.2
     0 0 3 3 0 9 9 "EPSG:4326" [("a.las", true)] (.box 0 0 3 3)
     rfl (by with_unfolding_all rfl)).1⟩

/-- Every corner of a valid bbox lies in the rectangle. -/
theorem corner_mem_bboxSet {minx miny maxx maxy : ℝ}
    (hx : minx ≤ maxx) (hy : miny ≤ maxy) :
    ∀ c ∈ bboxCorners minx miny maxx maxy, c ∈ bboxSet minx miny maxx maxy := by
  intro c hc
  simp only [bboxCorners, List.mem_cons, List.not_mem_nil, or_false] at hc
  rcases hc with rfl | rfl | rfl | rfl <;>
    simp [bboxSet, pt, le_refl, hx, hy]

/-- The buffered geometry grows (as a set) with the buffer distance. -/
theorem bboxGeometry_subset_of_le (minx miny maxx maxy : ℝ) {b1 b2 : ℝ}
    (h : b1 ≤ b2) :
    bboxGeometry minx miny maxx maxy b1 ⊆ bboxGeometry minx miny maxx maxy b2 := by
  intro p hp
  rcases hp with ⟨hb1, q, hq, hd⟩ | ⟨hb1, hp⟩
  · exact Or.inl ⟨lt_of_lt_of_le hb1 h, q, hq, hd.trans h⟩
  · by_cases hb2 : 0 < b2
    · exact Or.inl ⟨hb2, p, hp, by rw [dist_self]; exact hb2.le⟩
    · exact Or.inr ⟨hb2, hp⟩

/-- Claim C3: for every valid bbox, the built geometry contains the four
corners for any buffer, contains them in its interior when the buffer is
positive, and its area never decreases as the buffer grows. -/
theorem bboxGeometry_corners_and_area_monotone
    (minx miny maxx maxy : ℝ) (hx : minx < maxx) (hy : miny < maxy) :
    (∀ buffer : ℝ, ∀ c ∈ bboxCorners minx miny maxx maxy,
      c ∈ bboxGeometry minx miny maxx maxy buffer) ∧
    (∀ buffer : ℝ, 0 < buffer → ∀ c ∈ bboxCorners minx miny maxx maxy,
      c ∈ interior (bboxGeometry minx miny maxx maxy buffer)) ∧
    (∀ b1 b2 : ℝ, b1 ≤ b2 →
      volume (bboxGeometry minx miny maxx maxy b1) ≤
        volume (bboxGeometry minx miny maxx maxy b2)) := by
  refine ⟨?_, ?_, ?_⟩
  · intro buffer c hc
    have hcb := corner_mem_bboxSet hx.le hy.le c hc
    by_cases hb : 0 < buffer
    · exact Or.inl ⟨hb, c, hcb, by rw [dist_self]; exact hb.le⟩
    · exact Or.inr ⟨hb, hcb⟩
  · intro buffer hb c hc
    have hcb := corner_mem_bboxSet hx.le hy.le c hc
    rw [mem_interior]
    refine ⟨Metric.ball c buffer, ?_, Metric.isOpen_ball,
      Metric.mem_ball_self hb⟩
    intro p hp
    exact Or.inl ⟨hb, c, hcb, (Metric.mem_ball.mp hp).le⟩
  · intro b1 b2 h
    exact measure_mono (bboxGeometry_subset_of_le minx miny maxx maxy h)

/-- Witness for C3 at the unit bbox: a corner inside the buffered geometry,
in the interior for a positive buffer, and area monotonicity between two
concrete buffers. -/
theorem bboxGeometry_corners_and_area_monotone_witness :
    (0 : ℝ) < 1 ∧
    pt 0 0 ∈ bboxGeometry 0 0 1 1 2 ∧
    pt 1 1 ∈ interior (bboxGeometry 0 0 1 1 2) ∧
    volume (bboxGeometry 0 0 1 1 1) ≤ volume (bboxGeometry 0 0 1 1 2) := by
  have h := bboxGeometry_corners_and_area_monotone 0 0 1 1
    (by norm_num) (by norm_num)
  refine ⟨by norm_num, ?_, ?_, ?_⟩
  · exact h.1 2 (pt 0 0) (by simp [bboxCorners])
  · exact h.2.1 2 (by norm_num) (pt 1 1) (by simp [bboxCorners])
  · exact h.2.2 1 2 (by norm_num)

/-- Claim C4: for point sequences of length at least 2, the query geometry is
the convex hull of the union of the point set with the connecting polyline,
and it contains every input point and the whole polyline. -/
theorem build_query_geometry_points_hull (pts : List E2)
    (h : 2 ≤ pts.length) :
    build_query_geometry_points pts =
      convexHull ℝ ({p | p ∈ pts} ∪ pathOf pts) ∧
    (∀ p ∈ pts, p ∈ build_query_geometry_points pts) ∧
    pathOf pts ⊆ build_query_geometry_points pts := by
  have hne : build_query_geometry_points pts =
      convexHull ℝ ({p | p ∈ pts} ∪ pathOf pts) := by
    unfold build_query_geometry_points
    rw [if_neg (by omega)]
  refine ⟨hne, ?_, ?_⟩
  · intro p hp
    rw [hne]
    exact subset_convexHull ℝ _ (Or.inl hp)
  · rw [hne]
    exact (Set.subset_union_right).trans (subset_convexHull ℝ _)

/-- Witness for C4 on a concrete two-point path. -/
theorem build_query_geometry_points_hull_witness :
    2 ≤ ([pt 0 0, pt 1 0]).length ∧
    pt 0 0 ∈ build_query_geometry_points [pt 0 0, pt 1 0] ∧
    pathOf [pt 0 0, pt 1 0] ⊆ build_query_geometry_points [pt 0 0, pt 1 0] := by
  have h := build_query_geometry_points_hull [pt 0 0, pt 1 0] (by simp)
  exact ⟨by simp, h.2.1 (pt 0 0) (by simp), h.2.2⟩

/-- Claim C5: a single input point yields the closed disk of radius `0.001`
around it — a geometry that contains the point and has strictly positive
area. -/
theorem build_query_geometry_points_single (p : E2) :
    build_query_geometry_points [p] = Metric.closedBall p 0.001 ∧
    p ∈ build_query_geometry_points [p] ∧
    0 < volume (build_query_geometry_points [p]) := by
  have hdef : build_query_geometry_points [p] = Metric.closedBall p 0.001 := by
    unfold build_query_geometry_points
    rw [if_pos (by simp)]
    rfl
  refine ⟨hdef, ?_, ?_⟩
  · rw [hdef]
    exact Metric.mem_closedBall_self (by norm_num)
  · rw [hdef]
    exact lt_of_lt_of_le (Metric.measure_ball_pos volume p (by norm_num))
      (measure_mono Metric.ball_subset_closedBall)

/-- The union of the footprints in a list is the indexed union over list
positions. -/
theorem matchedUnion_eq_iUnion (geoms : List (Set E2)) :
    matchedUnion geoms = ⋃ i : Fin geoms.length, geoms.get i := by
  ext p
  simp only [matchedUnion, Set.mem_setOf_eq, Set.mem_iUnion]
  constructor
  · rintro ⟨g, hg, hp⟩
    obtain ⟨i, rfl⟩ := List.mem_iff_get.mp hg
    exact ⟨i, hp⟩
  · rintro ⟨i, hp⟩
    exact ⟨geoms.get i, List.get_mem geoms i.1 i.2, hp⟩

/-- A mapped list sum is the sum over list positions. -/
theorem list_map_sum_eq_fin_sum {α M : Type} [AddCommMonoid M] (f : α → M) :
    ∀ l : List α, (l.map f).sum = ∑ i : Fin l.length, f (l.get i)
  | [] => by simp
  | a :: l => by
    rw [List.map_cons, List.sum_cons, list_map_sum_eq_fin_sum f l]
    show _ = ∑ i : Fin (l.length + 1), f ((a :: l).get i)
    rw [Fin.sum_univ_succ]
    rfl

/-- Two sets of finite measure overlapping on positive measure have a union
of measure strictly below the sum of their measures. -/
theorem measure_union_lt_add {A B : Set E2} (hB : MeasurableSet B)
    (hA : volume A ≠ ⊤) (hBf : volume B ≠ ⊤)
    (hpos : 0 < volume (A ∩ B)) :
    volume (A ∪ B) < volume A + volume B := by
  have key : volume (A ∪ B) + volume (A ∩ B) = volume A + volume B :=
    measure_union_add_inter A hB
  have hfin : volume (A ∪ B) ≠ ⊤ :=
    (lt_of_le_of_lt (measure_union_le A B)
      (ENNReal.add_lt_top.mpr ⟨hA.lt_top, hBf.lt_top⟩)).ne
  calc volume (A ∪ B) < volume (A ∪ B) + volume (A ∩ B) :=
        ENNReal.lt_add_right hfin hpos.ne'
    _ = volume A + volume B := key

/-- A finite indexed union with two overlapping members of finite measure has
measure strictly below the sum of the members' measures. -/
theorem measure_iUnion_lt_sum {ι : Type} [Fintype ι] [DecidableEq ι]
    (f : ι → Set E2) (i j : ι) (hij : i ≠ j)
    (hmeas : ∀ k, MeasurableSet (f k)) (hfin : ∀ k, volume (f k) ≠ ⊤)
    (hpos : 0 < volume (f i ∩ f j)) :
    volume (⋃ k, f k) < ∑ k, volume (f k) := by
  have hsub : (⋃ k, f k) ⊆
      (f i ∪ f j) ∪ ⋃ k ∈ (Finset.univ.erase i).erase j, f k := by
    intro p hp
    rw [Set.mem_iUnion] at hp
    obtain ⟨k, hk⟩ := hp
    by_cases hki : k = i
    · exact Or.inl (Or.inl (hki ▸ hk))
    · by_cases hkj : k = j
      · exact Or.inl (Or.inr (hkj ▸ hk))
      · refine Or.inr ?_
        rw [Set.mem_iUnion₂]
        exact ⟨k, by simp [hki, hkj], hk⟩
  have h1 : volume (⋃ k, f k) ≤
      volume (f i ∪ f j) +
        ∑ k ∈ (Finset.univ.erase i).erase j, volume (f k) :=
    (measure_mono hsub).trans
      ((measure_union_le _ _).trans
        (add_le_add_left (measure_biUnion_finset_le _ f) _))
  have hrest_fin :
      ∑ k ∈ (Finset.univ.erase i).erase j, volume (f k) ≠ ⊤ :=
    (ENNReal.sum_lt_top.mpr (fun k _ => (hfin k).lt_top)).ne
  have h2 : volume (f i ∪ f j) +
        ∑ k ∈ (Finset.univ.erase i).erase j, volume (f k) <
      (volume (f i) + volume (f j)) +
        ∑ k ∈ (Finset.univ.erase i).erase j, volume (f k) :=
    ENNReal.add_lt_add_right hrest_fin
      (measure_union_lt_add (hmeas j) (hfin i) (hfin j) hpos)
  have hj : j ∈ Finset.univ.erase i :=
    Finset.mem_erase.mpr ⟨hij.symm, Finset.mem_univ j⟩
  have h3 : (volume (f i) + volume (f j)) +
        ∑ k ∈ (Finset.univ.erase i).erase j, volume (f k) =
      ∑ k, volume (f k) := by
    rw [add_assoc,
      Finset.add_sum_erase (Finset.univ.erase i) (fun k => volume (f k)) hj,
      Finset.add_sum_erase Finset.univ (fun k => volume (f k))
        (Finset.mem_univ i)]
  exact h1.trans_lt (h2.trans_eq h3)

/-- Claim C9: the matched area is the area of the true geometric union of
the matched footprints, hence at most the sum of the individual footprint
areas, and strictly below it whenever two distinct matched footprints
overlap on positive area (all footprints measurable and of finite area). -/
theorem matchedUnion_area_le_sum (geoms : List (Set E2)) :
    volume (matchedUnion geoms) ≤ (geoms.map volume).sum ∧
    (∀ i j : Fin geoms.length, i ≠ j →
      (∀ g ∈ geoms, MeasurableSet g) →
      (∀ g ∈ geoms, volume g ≠ ⊤) →
      0 < volume (geoms.get i ∩ geoms.get j) →
      volume (matchedUnion geoms) < (geoms.map volume).sum) := by
  constructor
  · rw [matchedUnion_eq_iUnion, list_map_sum_eq_fin_sum]
    calc volume (⋃ i : Fin geoms.length, geoms.get i) ≤
        tsum (fun i : Fin geoms.length => volume (geoms.get i)) :=
          measure_iUnion_le _
      _ = ∑ i : Fin geoms.length, volume (geoms.get i) := tsum_fintype _
  · intro i j hij hmeas hfin hpos
    rw [matchedUnion_eq_iUnion, list_map_sum_eq_fin_sum]
    exact measure_iUnion_lt_sum (fun k => geoms.get k) i j hij
      (fun k => hmeas _ (List.get_mem geoms k.1 k.2))
      (fun k => hfin _ (List.get_mem geoms k.1 k.2)) hpos

/-- Witness for C9: two identical unit disks as matched footprints — their
union's area is strictly below the naive area sum. -/
theorem matchedUnion_area_le_sum_witness :
    volume (matchedUnion
        [Metric.closedBall (0 : E2) 1, Metric.closedBall (0 : E2) 1]) <
      (([Metric.closedBall (0 : E2) 1,
         Metric.closedBall (0 : E2) 1]).map volume).sum := by
  refine (matchedUnion_area_le_sum
      [Metric.closedBall (0 : E2) 1, Metric.closedBall (0 : E2) 1]).2
    ⟨0, by norm_num⟩ ⟨1, by norm_num⟩ (by simp [Fin.ext_iff]) ?_ ?_ ?_
  · intro g hg
    simp only [List.mem_cons, List.not_mem_nil, or_false] at hg
    rcases hg with rfl | rfl <;> exact measurableSet_closedBall
  · intro g hg
    simp only [List.mem_cons, List.not_mem_nil, or_false] at hg
    rcases hg with rfl | rfl <;> exact measure_closedBall_lt_top.ne
  · show 0 < volume
      (Metric.closedBall (0 : E2) 1 ∩ Metric.closedBall (0 : E2) 1)
    rw [Set.inter_self]
    exact lt_of_lt_of_le (Metric.measure_ball_pos volume _ one_pos)
      (measure_mono Metric.ball_subset_closedBall)

end Whichlas

